import Mathlib

/-!
Verification of the geometry core of CC-ImageOverlay's
`lib/PositionPreviewWidget.py` (class `PositionPreviewWidget`).

The Python code is shallowly embedded: Qt integer rectangles (`QRect`,
with `right = x + w - 1`, `bottom = y + h - 1`) become the `Rect`
structure below, Python `float` arithmetic on ratios becomes exact `ℚ`
arithmetic, Python's `round` (round-half-to-even) becomes `pyround`,
Python's floor division `//` becomes `Int.fdiv`, and the widget's
mutable fields become the `WState` structure threaded through pure
step functions.  Signal emission and repaint requests are modelled as
booleans in `EffectResult`.
-/

namespace CCImageOverlay

/-- Python's built-in `round` on an exact rational value:
round half to even. -/
def pyround (q : ℚ) : ℤ :=
  if q - (⌊q⌋ : ℚ) < 1/2 then ⌊q⌋
  else if 1/2 < q - (⌊q⌋ : ℚ) then ⌊q⌋ + 1
  else if ⌊q⌋ % 2 = 0 then ⌊q⌋ else ⌊q⌋ + 1

theorem pyround_intCast (n : ℤ) : pyround (n : ℚ) = n := by
  unfold pyround
  simp [Int.floor_intCast]

theorem floor_le_pyround (q : ℚ) : ⌊q⌋ ≤ pyround q := by
  unfold pyround
  split_ifs <;> omega

theorem pyround_le_of_le {q : ℚ} {n : ℤ} (h : q ≤ (n : ℚ)) :
    pyround q ≤ n := by
  have hfl : ⌊q⌋ ≤ n := by
    calc ⌊q⌋ ≤ ⌊(n : ℚ)⌋ := Int.floor_le_floor h
    _ = n := Int.floor_intCast n
  unfold pyround
  split_ifs with h1 h2 h3
  · exact hfl
  · -- round-up branch: q is strictly above its floor, so ⌊q⌋ < n
    have hq : (⌊q⌋ : ℚ) < q := by
      have : (0:ℚ) < q - (⌊q⌋ : ℚ) := lt_trans (by norm_num) h2
      linarith
    have : (⌊q⌋ : ℚ) < (n : ℚ) := lt_of_lt_of_le hq h
    have : ⌊q⌋ < n := by exact_mod_cast this
    omega
  · exact hfl
  · have hq : (⌊q⌋ : ℚ) < q := by
      have hr : q - (⌊q⌋ : ℚ) = 1/2 := le_antisymm (not_lt.mp h2) (not_lt.mp h1)
      have : (0:ℚ) < q - (⌊q⌋ : ℚ) := by rw [hr]; norm_num
      linarith
    have : (⌊q⌋ : ℚ) < (n : ℚ) := lt_of_lt_of_le hq h
    have : ⌊q⌋ < n := by exact_mod_cast this
    omega

theorem pyround_nonneg {q : ℚ} (h : 0 ≤ q) : 0 ≤ pyround q := by
  have : (0:ℤ) ≤ ⌊q⌋ := Int.le_floor.mpr (by exact_mod_cast h)
  have := floor_le_pyround q
  omega

theorem abs_pyround_sub_le (q : ℚ) : |(pyround q : ℚ) - q| ≤ 1/2 := by
  have h0 : (⌊q⌋ : ℚ) ≤ q := Int.floor_le q
  have h1 : q < (⌊q⌋ : ℚ) + 1 := Int.lt_floor_add_one q
  unfold pyround
  split_ifs with ha hb hc
  · rw [abs_le]; constructor <;> simp <;> linarith
  · rw [abs_le]; constructor <;> push_cast <;> linarith
  · have hr : q - (⌊q⌋ : ℚ) = 1/2 := le_antisymm (not_lt.mp hb) (not_lt.mp ha)
    rw [abs_le]; constructor <;> simp <;> linarith
  · have hr : q - (⌊q⌋ : ℚ) = 1/2 := le_antisymm (not_lt.mp hb) (not_lt.mp ha)
    rw [abs_le]; constructor <;> push_cast <;> linarith

/-- An integer point (`QPoint`). -/
structure Pt where
  x : ℤ
  y : ℤ
deriving DecidableEq, Repr

/-- A Qt-style integer rectangle (`QRect`): `right = x + w - 1`,
`bottom = y + h - 1`. -/
structure Rect where
  x : ℤ
  y : ℤ
  w : ℤ
  h : ℤ
deriving DecidableEq, Repr

def Rect.left (r : Rect) : ℤ := r.x
def Rect.top (r : Rect) : ℤ := r.y
def Rect.right (r : Rect) : ℤ := r.x + r.w - 1
def Rect.bottom (r : Rect) : ℤ := r.y + r.h - 1

/-- `QRect.isNull`: both width and height are zero. -/
def Rect.isNull (r : Rect) : Prop := r.w = 0 ∧ r.h = 0

instance (r : Rect) : Decidable r.isNull := by
  unfold Rect.isNull; infer_instance

/-- `QRect.contains(QPoint)`: inclusive on all four edges; an empty
rectangle contains no point (since then `right < left`). -/
def Rect.containsPt (r : Rect) (p : Pt) : Bool :=
  decide (r.left ≤ p.x) && decide (p.x ≤ r.right) &&
  decide (r.top ≤ p.y) && decide (p.y ≤ r.bottom)

/-- `QRect.translate(delta)`. -/
def Rect.translateBy (r : Rect) (d : Pt) : Rect := ⟨r.x + d.x, r.y + d.y, r.w, r.h⟩

/-- `QRect.moveLeft(x0)`: move horizontally, size unchanged. -/
def Rect.moveLeftTo (r : Rect) (x0 : ℤ) : Rect := ⟨x0, r.y, r.w, r.h⟩

/-- `QRect.moveTop(y0)`: move vertically, size unchanged. -/
def Rect.moveTopTo (r : Rect) (y0 : ℤ) : Rect := ⟨r.x, y0, r.w, r.h⟩

/-- `QRect.setSize(QSize(w, h))`: keep the top-left corner. -/
def Rect.setSizeTo (r : Rect) (w h : ℤ) : Rect := ⟨r.x, r.y, w, h⟩

/-- `QRect.setTopLeft(p)`: keep the bottom-right corner. -/
def Rect.setTopLeftTo (r : Rect) (p : Pt) : Rect :=
  ⟨p.x, p.y, r.right - p.x + 1, r.bottom - p.y + 1⟩

/-- `QRect.setBottomLeft(p)`: keep the top-right corner. -/
def Rect.setBottomLeftTo (r : Rect) (p : Pt) : Rect :=
  ⟨p.x, r.y, r.right - p.x + 1, p.y - r.y + 1⟩

/-- `QRect.setTopRight(p)`: keep the bottom-left corner. -/
def Rect.setTopRightTo (r : Rect) (p : Pt) : Rect :=
  ⟨r.x, p.y, p.x - r.x + 1, r.bottom - p.y + 1⟩

-- Handle-kind constants from the top of the module.
def HANDLE_NONE : ℤ := 0
def HANDLE_TOP_LEFT : ℤ := 1
def HANDLE_TOP_RIGHT : ℤ := 2
def HANDLE_BOTTOM_LEFT : ℤ := 3
def HANDLE_BOTTOM_RIGHT : ℤ := 4
def HANDLE_MOVE : ℤ := 5

/-- `PositionPreviewWidget.HANDLE_SIZE`. -/
def HANDLE_SIZE : ℤ := 8

/-- The widget's mutable fields (`self._...`). -/
structure WState where
  monitorAspectRatio : ℚ
  monitorRect : Rect
  overlayRect : Rect
  overlayRelativePos : Pt
  overlayActualWidth : ℤ
  overlayActualHeight : ℤ
  overlayAspectRatio : ℚ
  monitorWidthPx : ℤ
  monitorHeightPx : ℤ
  draggingMode : ℤ
  dragStartPos : Pt
  dragStartRect : Rect
deriving DecidableEq, Repr

/-- Field values assigned in `__init__`. -/
def initState : WState :=
  { monitorAspectRatio := 16/9
    monitorRect := ⟨0, 0, 0, 0⟩
    overlayRect := ⟨0, 0, 0, 0⟩
    overlayRelativePos := ⟨0, 0⟩
    overlayActualWidth := 50
    overlayActualHeight := 50
    overlayAspectRatio := 1
    monitorWidthPx := 1920
    monitorHeightPx := 1080
    draggingMode := HANDLE_NONE
    dragStartPos := ⟨0, 0⟩
    dragStartRect := ⟨0, 0, 0, 0⟩ }

/-- Result of an operation that may repaint (`self.update()`) and may
emit `overlayGeometryChanged`. -/
structure EffectResult where
  state : WState
  redraw : Bool
  emitted : Bool
deriving DecidableEq, Repr

/-- Minimum preview size for the overlay rectangle,
`HANDLE_SIZE * 2 + 2` (used both in `_calculate_rects` and as
`min_w_preview` in `mouseMoveEvent`). -/
def minPreviewSize : ℤ := HANDLE_SIZE * 2 + 2

/-- The real-to-canvas conversion used in `_calculate_rects`
(lines 150-155): `monitorRect` origin plus
`round(monitorRect dimension * (real coordinate / real monitor dimension))`. -/
def toCanvasCoord (monOrigin monDim realDim : ℤ) (realCoord : ℤ) : ℤ :=
  monOrigin + pyround ((monDim : ℚ) * ((realCoord : ℚ) / (realDim : ℚ)))

/-- The canvas-to-real conversion used in `mouseMoveEvent`
(lines 381-384): `round` of the canvas offset ratio times the real
monitor dimension, clamped to be nonnegative. -/
def toRealCoord (monOrigin monDim realDim : ℤ) (canvasCoord : ℤ) : ℤ :=
  max 0 (pyround (((canvasCoord - monOrigin : ℤ) : ℚ) / (monDim : ℚ) * (realDim : ℚ)))

/-- The letterbox fit of the monitor into the widget's drawable area
(`_calculate_rects`, lines 122-134). -/
def monitorFitRect (widgetRect : Rect) (monitorAspectRatio : ℚ) : Rect :=
  if monitorAspectRatio < (widgetRect.w : ℚ) / (widgetRect.h : ℚ) then
    -- widget is wider: height-limited
    ⟨widgetRect.x + Int.fdiv (widgetRect.w - pyround ((widgetRect.h : ℚ) * monitorAspectRatio)) 2,
     widgetRect.y,
     pyround ((widgetRect.h : ℚ) * monitorAspectRatio),
     widgetRect.h⟩
  else
    -- widget is taller or equal: width-limited
    ⟨widgetRect.x,
     widgetRect.y + Int.fdiv (widgetRect.h - pyround ((widgetRect.w : ℚ) / monitorAspectRatio)) 2,
     widgetRect.w,
     pyround ((widgetRect.w : ℚ) / monitorAspectRatio)⟩

/-- The overlay preview rectangle computed inside `_calculate_rects`
(lines 140-170): scaled size floored at `minPreviewSize`, position via
`toCanvasCoord`, then clamped against the monitor rectangle's
right/bottom (+1 for rounding slack) and left/top edges. -/
def overlayPreviewRect (mr : Rect) (relPos : Pt) (aw ah mw mh : ℤ) : Rect :=
  let previewW := max minPreviewSize (pyround ((mr.w : ℚ) * ((aw : ℚ) / (mw : ℚ))))
  let previewH := max minPreviewSize (pyround ((mr.h : ℚ) * ((ah : ℚ) / (mh : ℚ))))
  let px0 := toCanvasCoord mr.x mr.w mw relPos.x
  let py0 := toCanvasCoord mr.y mr.h mh relPos.y
  let px1 := if mr.right + 1 < px0 + previewW then mr.right + 1 - previewW else px0
  let py1 := if mr.bottom + 1 < py0 + previewH then mr.bottom + 1 - previewH else py0
  ⟨max mr.left px1, max mr.top py1, previewW, previewH⟩

/-- `_calculate_rects`, as a function of the widget's current size.
`widgetW × widgetH` is `self.rect()`; the drawable area is
`self.rect().adjusted(1, 1, -1, -1)`. -/
def calculateRects (widgetW widgetH : ℤ) (s : WState) : WState :=
  let widgetRect : Rect := ⟨1, 1, widgetW - 2, widgetH - 2⟩
  if widgetRect.w ≤ 0 ∨ widgetRect.h ≤ 0 then s
  else
    let mr := monitorFitRect widgetRect s.monitorAspectRatio
    if 0 < s.monitorWidthPx ∧ 0 < s.monitorHeightPx ∧ 0 < mr.w ∧ 0 < mr.h then
      { s with monitorRect := mr
               overlayRect := overlayPreviewRect mr s.overlayRelativePos
                 s.overlayActualWidth s.overlayActualHeight
                 s.monitorWidthPx s.monitorHeightPx }
    else
      { s with monitorRect := mr, overlayRect := ⟨0, 0, 0, 0⟩ }

/-- `setMonitorGeometry(width, height)`. -/
def setMonitorGeometry (widgetW widgetH : ℤ) (s : WState) (width height : ℤ) :
    EffectResult :=
  if 0 < width ∧ 0 < height then
    if s.monitorWidthPx ≠ width ∨ s.monitorHeightPx ≠ height then
      let s1 := { s with monitorWidthPx := width
                         monitorHeightPx := height
                         monitorAspectRatio := (width : ℚ) / (height : ℚ) }
      ⟨calculateRects widgetW widgetH s1, true, false⟩
    else ⟨s, false, false⟩
  else ⟨s, false, false⟩

/-- `setOverlayInfo(rel_x, rel_y, overlay_actual_w, overlay_actual_h)`.
The method never emits `overlayGeometryChanged`. -/
def setOverlayInfo (widgetW widgetH : ℤ) (s : WState)
    (relX relY overlayActualW overlayActualH : ℤ) : EffectResult :=
  let newPos : Pt := ⟨relX, relY⟩
  let newW := max 1 overlayActualW
  let newH := max 1 overlayActualH
  let posChanged := s.overlayRelativePos ≠ newPos
  let sizeChanged := s.overlayActualWidth ≠ newW ∨ s.overlayActualHeight ≠ newH
  let s1 := if posChanged then { s with overlayRelativePos := newPos } else s
  let s2 := if sizeChanged then
      { s1 with overlayActualWidth := newW
                overlayActualHeight := newH
                overlayAspectRatio :=
                  if 0 < newH then (newW : ℚ) / (newH : ℚ) else 1 }
    else s1
  if posChanged ∨ sizeChanged then ⟨calculateRects widgetW widgetH s2, true, false⟩
  else ⟨s2, false, false⟩

/-- `hs_half = HANDLE_SIZE // 2` in `_get_handle_rects`. -/
def handleHalf : ℤ := Int.fdiv HANDLE_SIZE 2

/-- The top-left handle square of an overlay rectangle. -/
def cornerRectTL (r : Rect) : Rect :=
  ⟨r.left - handleHalf, r.top - handleHalf, HANDLE_SIZE, HANDLE_SIZE⟩

/-- The top-right handle square of an overlay rectangle. -/
def cornerRectTR (r : Rect) : Rect :=
  ⟨r.right - handleHalf, r.top - handleHalf, HANDLE_SIZE, HANDLE_SIZE⟩

/-- The bottom-left handle square of an overlay rectangle. -/
def cornerRectBL (r : Rect) : Rect :=
  ⟨r.left - handleHalf, r.bottom - handleHalf, HANDLE_SIZE, HANDLE_SIZE⟩

/-- The bottom-right handle square of an overlay rectangle. -/
def cornerRectBR (r : Rect) : Rect :=
  ⟨r.right - handleHalf, r.bottom - handleHalf, HANDLE_SIZE, HANDLE_SIZE⟩

/-- `_get_handle_rects`: the four corner handle squares, in the
dictionary's insertion order (top-left, top-right, bottom-left,
bottom-right); empty when the overlay rectangle is null. -/
def getHandleRects (s : WState) : List (ℤ × Rect) :=
  if s.overlayRect.isNull then []
  else
    [(HANDLE_TOP_LEFT, cornerRectTL s.overlayRect),
     (HANDLE_TOP_RIGHT, cornerRectTR s.overlayRect),
     (HANDLE_BOTTOM_LEFT, cornerRectBL s.overlayRect),
     (HANDLE_BOTTOM_RIGHT, cornerRectBR s.overlayRect)]

/-- `_get_handle_at(pos)`: first handle square containing the point, in
iteration order; otherwise `HANDLE_MOVE` if the overlay body contains
it; otherwise `HANDLE_NONE`. -/
def getHandleAt (s : WState) (pos : Pt) : ℤ :=
  match (getHandleRects s).find? (fun kr => kr.2.containsPt pos) with
  | some kr => kr.1
  | none => if s.overlayRect.containsPt pos then HANDLE_MOVE else HANDLE_NONE

/-- `mousePressEvent`: on a left-button press inside the monitor
rectangle, store the handle under the cursor as the dragging mode and,
if it is a real handle, record the drag anchor and start rectangle. -/
def mousePress (s : WState) (leftButton : Bool) (pos globalPos : Pt) : WState :=
  if leftButton ∧ s.monitorRect.containsPt pos then
    let mode := getHandleAt s pos
    if mode ≠ HANDLE_NONE then
      { s with draggingMode := mode
               dragStartPos := globalPos
               dragStartRect := s.overlayRect }
    else { s with draggingMode := mode }
  else s

/-- The aspect-ratio "shrink-to-fit" block shared by all four resize
branches (lines 319-323 and their copies): if the width, divided by
the aspect ratio, falls short of the height, shrink the height to
match, else shrink the width; skipped entirely when the stored aspect
ratio is not positive. -/
def aspectAdjust (w h : ℤ) (ar : ℚ) : ℤ × ℤ :=
  if 0 < ar then
    if (w : ℚ) / ar < (h : ℚ) then (w, pyround ((w : ℚ) / ar))
    else (pyround ((h : ℚ) * ar), h)
  else (w, h)

/-- `min_h_preview` in `mouseMoveEvent` (lines 300-306): the minimum
preview height derived from the overlay aspect ratio, floored at
`minPreviewSize`. -/
def minHPreviewOf (ar : ℚ) : ℤ :=
  max minPreviewSize
    (if 0 < ar then pyround ((minPreviewSize : ℚ) / ar) else minPreviewSize)

/-- Bottom-right resize (lines 310-323): width and height after
boundary clamping and the aspect-ratio shrink step, before the final
minimum-size floors. -/
def resizeRawBR (s : WState) (delta : Pt) : ℤ × ℤ :=
  let ar := s.overlayAspectRatio
  let start := s.dragStartRect
  let tempW := max minPreviewSize (start.w + delta.x)
  let tempH := max (minHPreviewOf ar)
    (if 0 < ar then pyround ((tempW : ℚ) / ar) else tempW)
  let finalW0 := if 0 < ar then pyround ((tempH : ℚ) * ar) else tempH
  let newRight := min (s.monitorRect.right + 1) (start.left + finalW0)
  let newBottom := min (s.monitorRect.bottom + 1) (start.top + tempH)
  aspectAdjust (newRight - start.left) (newBottom - start.top) ar

/-- Bottom-right resize candidate rectangle (line 324). -/
def resizeRectBR (s : WState) (delta : Pt) : Rect :=
  let p := resizeRawBR s delta
  s.dragStartRect.setSizeTo (max minPreviewSize p.1)
    (max (minHPreviewOf s.overlayAspectRatio) p.2)

/-- Top-left resize (lines 326-339): new top-left position together
with the width and height after clamping and the aspect shrink step,
before the final floors. -/
def resizeRawTL (s : WState) (delta : Pt) : (ℤ × ℤ) × (ℤ × ℤ) :=
  let ar := s.overlayAspectRatio
  let start := s.dragStartRect
  let tempW := max minPreviewSize (start.w - delta.x)
  let tempH := max (minHPreviewOf ar)
    (if 0 < ar then pyround ((tempW : ℚ) / ar) else tempW)
  let finalW0 := if 0 < ar then pyround ((tempH : ℚ) * ar) else tempH
  let newLeft := max s.monitorRect.left (start.right + 1 - finalW0)
  let newTop := max s.monitorRect.top (start.bottom + 1 - tempH)
  ((newLeft, newTop), aspectAdjust (start.right + 1 - newLeft) (start.bottom + 1 - newTop) ar)

/-- Top-left resize candidate rectangle (lines 340-341). -/
def resizeRectTL (s : WState) (delta : Pt) : Rect :=
  let q := resizeRawTL s delta
  (s.dragStartRect.setTopLeftTo ⟨q.1.1, q.1.2⟩).setSizeTo
    (max minPreviewSize q.2.1) (max (minHPreviewOf s.overlayAspectRatio) q.2.2)

/-- Bottom-left resize (lines 343-356). -/
def resizeRawBL (s : WState) (delta : Pt) : (ℤ × ℤ) × (ℤ × ℤ) :=
  let ar := s.overlayAspectRatio
  let start := s.dragStartRect
  let tempW := max minPreviewSize (start.w - delta.x)
  let tempH := max (minHPreviewOf ar)
    (if 0 < ar then pyround ((tempW : ℚ) / ar) else tempW)
  let finalW0 := if 0 < ar then pyround ((tempH : ℚ) * ar) else tempH
  let newLeft := max s.monitorRect.left (start.right + 1 - finalW0)
  let newBottom := min (s.monitorRect.bottom + 1) (start.top + tempH)
  ((newLeft, newBottom), aspectAdjust (start.right + 1 - newLeft) (newBottom - start.top) ar)

/-- Bottom-left resize candidate rectangle (lines 357-358). -/
def resizeRectBL (s : WState) (delta : Pt) : Rect :=
  let q := resizeRawBL s delta
  (s.dragStartRect.setBottomLeftTo ⟨q.1.1, q.1.2⟩).setSizeTo
    (max minPreviewSize q.2.1) (max (minHPreviewOf s.overlayAspectRatio) q.2.2)

/-- Top-right resize (lines 361-374). -/
def resizeRawTR (s : WState) (delta : Pt) : (ℤ × ℤ) × (ℤ × ℤ) :=
  let ar := s.overlayAspectRatio
  let start := s.dragStartRect
  let tempW := max minPreviewSize (start.w + delta.x)
  let tempH := max (minHPreviewOf ar)
    (if 0 < ar then pyround ((tempW : ℚ) / ar) else tempW)
  let finalW0 := if 0 < ar then pyround ((tempH : ℚ) * ar) else tempH
  let newRight := min (s.monitorRect.right + 1) (start.left + finalW0)
  let newTop := max s.monitorRect.top (start.bottom + 1 - tempH)
  ((newRight, newTop), aspectAdjust (newRight - start.left) (start.bottom + 1 - newTop) ar)

/-- Top-right resize candidate rectangle (lines 375-376). -/
def resizeRectTR (s : WState) (delta : Pt) : Rect :=
  let q := resizeRawTR s delta
  (s.dragStartRect.setTopRightTo ⟨q.1.1, q.1.2⟩).setSizeTo
    (max minPreviewSize q.2.1) (max (minHPreviewOf s.overlayAspectRatio) q.2.2)

/-- The candidate rectangle computed by a `mouseMoveEvent` drag step
(lines 288-376), as a function of the drag mode stored in the state. -/
def dragCandidate (s : WState) (delta : Pt) : Rect :=
  if s.draggingMode = HANDLE_MOVE then
    let r0 := s.dragStartRect.translateBy delta
    let r1 := r0.moveLeftTo
      (max s.monitorRect.left (min r0.left (s.monitorRect.right + 1 - r0.w)))
    r1.moveTopTo
      (max s.monitorRect.top (min r1.top (s.monitorRect.bottom + 1 - r1.h)))
  else if s.draggingMode = HANDLE_BOTTOM_RIGHT then resizeRectBR s delta
  else if s.draggingMode = HANDLE_TOP_LEFT then resizeRectTL s delta
  else if s.draggingMode = HANDLE_BOTTOM_LEFT then resizeRectBL s delta
  else if s.draggingMode = HANDLE_TOP_RIGHT then resizeRectTR s delta
  else s.dragStartRect

/-- The drag-update part of `mouseMoveEvent` (lines 286-404):
candidate computation followed by the conditional commit back to
canonical real-pixel state, with `overlayGeometryChanged` emitted iff
the canonical position or size actually changed. -/
def dragStep (s : WState) (leftPressed : Bool) (currentGlobalPos : Pt) :
    EffectResult :=
  if s.draggingMode ≠ HANDLE_NONE ∧ leftPressed then
    let delta : Pt := ⟨currentGlobalPos.x - s.dragStartPos.x,
                       currentGlobalPos.y - s.dragStartPos.y⟩
    let newRect := dragCandidate s delta
    if s.overlayRect ≠ newRect ∧ 0 < s.monitorRect.w ∧ 0 < s.monitorRect.h then
      let newRelX := toRealCoord s.monitorRect.x s.monitorRect.w s.monitorWidthPx newRect.x
      let newRelY := toRealCoord s.monitorRect.y s.monitorRect.h s.monitorHeightPx newRect.y
      let newW := max 1 (pyround ((newRect.w : ℚ) / (s.monitorRect.w : ℚ) * (s.monitorWidthPx : ℚ)))
      let newH := max 1 (pyround ((newRect.h : ℚ) / (s.monitorRect.h : ℚ) * (s.monitorHeightPx : ℚ)))
      let posChanged := s.overlayRelativePos ≠ (⟨newRelX, newRelY⟩ : Pt)
      let sizeChanged := s.overlayActualWidth ≠ newW ∨ s.overlayActualHeight ≠ newH
      let s1 := if posChanged then { s with overlayRelativePos := ⟨newRelX, newRelY⟩ } else s
      let s2 := if sizeChanged then
          { s1 with overlayActualWidth := newW
                    overlayActualHeight := newH
                    overlayAspectRatio :=
                      if 0 < newH then (newW : ℚ) / (newH : ℚ)
                      else s1.overlayAspectRatio }
        else s1
      ⟨{ s2 with overlayRect := newRect }, true, decide (posChanged ∨ sizeChanged)⟩
    else ⟨s, false, false⟩
  else ⟨s, false, false⟩

/-- `mouseReleaseEvent`: reset the drag mode and re-run the move
handler (which, with the mode reset, leaves the geometry alone). -/
def mouseRelease (s : WState) (leftButton buttonsAfter : Bool) (cur : Pt) : WState :=
  if leftButton ∧ s.draggingMode ≠ HANDLE_NONE then
    (dragStep { s with draggingMode := HANDLE_NONE } buttonsAfter cur).state
  else s

/-- The hit-testing chain exactly as the specification words it: test
the four fixed-size corner squares in priority order top-left,
top-right, bottom-left, bottom-right and return the first hit; if none
match, test containment in the overlay body for `HANDLE_MOVE`;
otherwise `HANDLE_NONE`. -/
def handleAtSpec (s : WState) (pos : Pt) : ℤ :=
  if (cornerRectTL s.overlayRect).containsPt pos then HANDLE_TOP_LEFT
  else if (cornerRectTR s.overlayRect).containsPt pos then HANDLE_TOP_RIGHT
  else if (cornerRectBL s.overlayRect).containsPt pos then HANDLE_BOTTOM_LEFT
  else if (cornerRectBR s.overlayRect).containsPt pos then HANDLE_BOTTOM_RIGHT
  else if s.overlayRect.containsPt pos then HANDLE_MOVE
  else HANDLE_NONE

/-- `_calculate_rects` never touches the canonical overlay state, the
display dimensions, or the drag-session fields. -/
theorem calculateRects_preserves (widgetW widgetH : ℤ) (s : WState) :
    (calculateRects widgetW widgetH s).overlayRelativePos = s.overlayRelativePos ∧
    (calculateRects widgetW widgetH s).overlayActualWidth = s.overlayActualWidth ∧
    (calculateRects widgetW widgetH s).overlayActualHeight = s.overlayActualHeight ∧
    (calculateRects widgetW widgetH s).overlayAspectRatio = s.overlayAspectRatio ∧
    (calculateRects widgetW widgetH s).monitorAspectRatio = s.monitorAspectRatio ∧
    (calculateRects widgetW widgetH s).monitorWidthPx = s.monitorWidthPx ∧
    (calculateRects widgetW widgetH s).monitorHeightPx = s.monitorHeightPx ∧
    (calculateRects widgetW widgetH s).draggingMode = s.draggingMode ∧
    (calculateRects widgetW widgetH s).dragStartPos = s.dragStartPos ∧
    (calculateRects widgetW widgetH s).dragStartRect = s.dragStartRect := by
  unfold calculateRects
  simp only []
  split_ifs <;> simp

/-- Claim C10: `setMonitorGeometry` with a non-positive width or
height changes no field of the widget state, performs no recompute,
and triggers neither a redraw nor a signal. -/
theorem setMonitorGeometry_invalid_noop
    (widgetW widgetH : ℤ) (s : WState) (width height : ℤ)
    (h : width ≤ 0 ∨ height ≤ 0) :
    setMonitorGeometry widgetW widgetH s width height = ⟨s, false, false⟩ := by
  unfold setMonitorGeometry
  have hc : ¬(0 < width ∧ 0 < height) := by omega
  simp [hc]

theorem setMonitorGeometry_invalid_noop_witness :
    setMonitorGeometry 322 182 initState 0 1080 = ⟨initState, false, false⟩ :=
  setMonitorGeometry_invalid_noop 322 182 initState 0 1080 (Or.inl (by norm_num))

/-- Claim C5: `setOverlayInfo` never emits `overlayGeometryChanged`,
and when called with a position and (coerced) size identical to the
current canonical state it changes nothing at all. -/
theorem setOverlayInfo_identical_noop
    (widgetW widgetH : ℤ) (s : WState) (relX relY w h : ℤ) :
    (setOverlayInfo widgetW widgetH s relX relY w h).emitted = false ∧
    ((⟨relX, relY⟩ : Pt) = s.overlayRelativePos → max 1 w = s.overlayActualWidth →
      max 1 h = s.overlayActualHeight →
      setOverlayInfo widgetW widgetH s relX relY w h = ⟨s, false, false⟩) := by
  constructor
  · unfold setOverlayInfo
    simp only []
    split_ifs <;> rfl
  · intro h1 h2 h3
    unfold setOverlayInfo
    simp [← h1, ← h2, ← h3]

theorem setOverlayInfo_identical_noop_witness :
    setOverlayInfo 322 182 initState 0 0 50 50 = ⟨initState, false, false⟩ :=
  (setOverlayInfo_identical_noop 322 182 initState 0 0 50 50).2
    (by decide) (by decide) (by decide)

/-- Claim C9 (amended): a degenerate widget drawable area makes
`_calculate_rects` a complete no-op, but degenerate display dimensions
do not skip the recompute: the monitor rectangle is still recomputed
from the stored aspect ratio and the overlay rectangle is reset to a
null rectangle (no division is reached in either case, the function
being total). -/
theorem calculateRects_degenerate
    (widgetW widgetH : ℤ) (s : WState) :
    (widgetW - 2 ≤ 0 ∨ widgetH - 2 ≤ 0 →
      calculateRects widgetW widgetH s = s) ∧
    (0 < widgetW - 2 → 0 < widgetH - 2 →
      s.monitorWidthPx ≤ 0 ∨ s.monitorHeightPx ≤ 0 →
      (calculateRects widgetW widgetH s).overlayRect = ⟨0, 0, 0, 0⟩ ∧
      (calculateRects widgetW widgetH s).monitorRect =
        monitorFitRect ⟨1, 1, widgetW - 2, widgetH - 2⟩ s.monitorAspectRatio) := by
  constructor
  · intro h
    have h2 : widgetW ≤ 2 ∨ widgetH ≤ 2 := by omega
    rcases h2 with h2 | h2 <;> simp [calculateRects, h2]
  · intro hW hH hmon
    have hg1 : ¬(widgetW ≤ 2) := by omega
    have hg2 : ¬(widgetH ≤ 2) := by omega
    have hg3 : ¬(0 < s.monitorWidthPx ∧ 0 < s.monitorHeightPx ∧
        0 < (monitorFitRect ⟨1, 1, widgetW - 2, widgetH - 2⟩ s.monitorAspectRatio).w ∧
        0 < (monitorFitRect ⟨1, 1, widgetW - 2, widgetH - 2⟩ s.monitorAspectRatio).h) := by
      intro hc
      rcases hmon with h | h
      · omega
      · omega
    simp [calculateRects, hg1, hg2, hg3]

theorem calculateRects_degenerate_witness :
    (calculateRects 2 52 initState = initState) ∧
    (calculateRects 102 52 { initState with monitorWidthPx := 0 }).overlayRect = ⟨0, 0, 0, 0⟩ :=
  ⟨(calculateRects_degenerate 2 52 initState).1 (Or.inl (by norm_num)),
   ((calculateRects_degenerate 102 52 { initState with monitorWidthPx := 0 }).2
      (by norm_num) (by norm_num) (Or.inl (by norm_num))).1⟩

/-- Claim C9 counterexample: with zero display width and a valid
widget area, `_calculate_rects` does not leave the previously computed
frame untouched: the overlay rectangle is cleared to null and the
monitor rectangle is recomputed. -/
theorem calculateRects_degenerate_counterexample :
    (calculateRects 102 52
        { initState with monitorWidthPx := 0, overlayRect := ⟨5, 5, 30, 30⟩ }).overlayRect
      = ⟨0, 0, 0, 0⟩ ∧
    ({ initState with monitorWidthPx := 0, overlayRect := ⟨5, 5, 30, 30⟩ } : WState).overlayRect
      = ⟨5, 5, 30, 30⟩ ∧
    (calculateRects 102 52
        { initState with monitorWidthPx := 0, overlayRect := ⟨5, 5, 30, 30⟩ }).monitorRect
      = ⟨6, 1, 89, 50⟩ ∧
    ({ initState with monitorWidthPx := 0, overlayRect := ⟨5, 5, 30, 30⟩ } : WState).monitorRect
      = ⟨0, 0, 0, 0⟩ := by
  refine ⟨?_, by decide, ?_, by decide⟩ <;>
    norm_num [calculateRects, monitorFitRect, overlayPreviewRect, toCanvasCoord,
      pyround, minPreviewSize, HANDLE_SIZE, initState, Int.fdiv,
      Rect.left, Rect.top, Rect.right, Rect.bottom]

/-- `setOverlayInfo` always stores the coerced sizes `max 1 w`,
`max 1 h` as the canonical overlay dimensions. -/
theorem setOverlayInfo_actualSize (widgetW widgetH : ℤ) (s : WState)
    (relX relY w h : ℤ) :
    (setOverlayInfo widgetW widgetH s relX relY w h).state.overlayActualWidth = max 1 w ∧
    (setOverlayInfo widgetW widgetH s relX relY w h).state.overlayActualHeight = max 1 h := by
  unfold setOverlayInfo
  simp only []
  split_ifs <;> simp_all [calculateRects_preserves]

/-- Claim C8 (amended): after `setOverlayInfo` the canonical overlay
dimensions are at least 1 (so the canonical height is never zero and
the aspect-ratio default of 1.0 cannot fire there), and after a drag
update that actually commits, the canonical dimensions are at least 1
and the canonical offsets at least 0.  (`setOverlayInfo` itself stores
host-supplied offsets unclamped, so negative offsets remain possible —
see the counterexample.) -/
theorem canonical_state_bounds :
    (∀ (widgetW widgetH : ℤ) (s : WState) (relX relY w h : ℤ),
      1 ≤ (setOverlayInfo widgetW widgetH s relX relY w h).state.overlayActualWidth ∧
      1 ≤ (setOverlayInfo widgetW widgetH s relX relY w h).state.overlayActualHeight) ∧
    (∀ (s : WState) (b : Bool) (cur : Pt),
      (dragStep s b cur).state.overlayRect ≠ s.overlayRect →
      1 ≤ (dragStep s b cur).state.overlayActualWidth ∧
      1 ≤ (dragStep s b cur).state.overlayActualHeight ∧
      0 ≤ (dragStep s b cur).state.overlayRelativePos.x ∧
      0 ≤ (dragStep s b cur).state.overlayRelativePos.y) := by
  constructor
  · intro widgetW widgetH s relX relY w h
    have := setOverlayInfo_actualSize widgetW widgetH s relX relY w h
    omega
  · intro s b cur hchg
    unfold dragStep at *
    simp only [] at *
    split_ifs at * <;> simp_all [toRealCoord]

/-- Claim C8 counterexample: `setOverlayInfo` stores a negative
host-supplied offset as-is, so "offsets ≥ 0 after every operation"
fails. -/
theorem canonical_state_bounds_counterexample :
    (setOverlayInfo 322 182 initState (-5) 0 50 50).state.overlayRelativePos.x = -5 ∧
    ¬(0 ≤ (setOverlayInfo 322 182 initState (-5) 0 50 50).state.overlayRelativePos.x) := by
  have hx : (setOverlayInfo 322 182 initState (-5) 0 50 50).state.overlayRelativePos.x = -5 := by
    norm_num [setOverlayInfo, calculateRects, monitorFitRect, overlayPreviewRect,
      toCanvasCoord, pyround, minPreviewSize, HANDLE_SIZE, initState, Int.fdiv,
      Rect.left, Rect.top, Rect.right, Rect.bottom]
  refine ⟨hx, by rw [hx]; norm_num⟩

/-- A concrete widget state in the middle of a bottom-right resize
drag: display 1920×1080, overlay 122×118 at the origin, widget
322×182, press at the bottom-right handle.  `exampleDragState_reachable`
shows it is produced by the public API. -/
def exampleDragState : WState :=
  { monitorAspectRatio := 16/9
    monitorRect := ⟨1, 1, 320, 180⟩
    overlayRect := ⟨1, 1, 20, 20⟩
    overlayRelativePos := ⟨0, 0⟩
    overlayActualWidth := 122
    overlayActualHeight := 118
    overlayAspectRatio := 61/59
    monitorWidthPx := 1920
    monitorHeightPx := 1080
    draggingMode := HANDLE_BOTTOM_RIGHT
    dragStartPos := ⟨100, 100⟩
    dragStartRect := ⟨1, 1, 20, 20⟩ }

theorem exampleDragState_reachable : exampleDragState =
    mousePress (setOverlayInfo 322 182 initState 0 0 122 118).state true ⟨20, 20⟩ ⟨100, 100⟩ := by
  norm_num [exampleDragState, mousePress, setOverlayInfo, calculateRects, monitorFitRect,
    overlayPreviewRect, toCanvasCoord, pyround, minPreviewSize, HANDLE_SIZE, initState, Int.fdiv,
    Rect.left, Rect.top, Rect.right, Rect.bottom, getHandleAt, getHandleRects, Rect.containsPt,
    Rect.isNull, cornerRectTL, cornerRectTR, cornerRectBL, cornerRectBR, handleHalf,
    HANDLE_TOP_LEFT, HANDLE_TOP_RIGHT, HANDLE_BOTTOM_LEFT, HANDLE_BOTTOM_RIGHT, HANDLE_MOVE,
    HANDLE_NONE, List.find?]

/-- One bottom-right drag step on `exampleDragState` with the pointer
moved 180 px to the right commits the candidate rectangle
`(1, 1, 186, 180)`. -/
theorem dragStep_example_rect :
    (dragStep exampleDragState true ⟨280, 100⟩).state.overlayRect = ⟨1, 1, 186, 180⟩ := by
  norm_num [exampleDragState, dragStep, dragCandidate, resizeRectBR, resizeRawBR, aspectAdjust,
    minHPreviewOf, minPreviewSize, HANDLE_SIZE, HANDLE_NONE, HANDLE_MOVE, HANDLE_BOTTOM_RIGHT,
    HANDLE_TOP_LEFT, HANDLE_BOTTOM_LEFT, HANDLE_TOP_RIGHT, Rect.setSizeTo, Rect.left, Rect.top,
    Rect.right, Rect.bottom, toRealCoord, pyround, Int.fdiv]

theorem canonical_state_bounds_witness :
    (1 ≤ (setOverlayInfo 322 182 initState 0 0 122 118).state.overlayActualWidth ∧
     1 ≤ (setOverlayInfo 322 182 initState 0 0 122 118).state.overlayActualHeight) ∧
    (1 ≤ (dragStep exampleDragState true ⟨280, 100⟩).state.overlayActualWidth ∧
     1 ≤ (dragStep exampleDragState true ⟨280, 100⟩).state.overlayActualHeight ∧
     0 ≤ (dragStep exampleDragState true ⟨280, 100⟩).state.overlayRelativePos.x ∧
     0 ≤ (dragStep exampleDragState true ⟨280, 100⟩).state.overlayRelativePos.y) :=
  ⟨canonical_state_bounds.1 322 182 initState 0 0 122 118,
   canonical_state_bounds.2 exampleDragState true ⟨280, 100⟩
     (by rw [dragStep_example_rect]; decide)⟩

/-- Claim C4: `_get_handle_at` realises exactly the specified chain —
the four fixed-size corner squares are tested in the fixed priority
order top-left, top-right, bottom-left, bottom-right and the first hit
wins; only when no handle square contains the point is the overlay
body tested for `HANDLE_MOVE`, else `HANDLE_NONE`.  In particular,
wherever a handle square contains the point, the result is a corner
kind, never `HANDLE_MOVE`. -/
theorem getHandleAt_priority (s : WState) (pos : Pt)
    (hnull : ¬ s.overlayRect.isNull) :
    getHandleAt s pos = handleAtSpec s pos ∧
    (∀ k r, (k, r) ∈ getHandleRects s → r.containsPt pos →
      getHandleAt s pos ≠ HANDLE_MOVE ∧ getHandleAt s pos ≠ HANDLE_NONE) := by
  have hrects : getHandleRects s =
      [(HANDLE_TOP_LEFT, cornerRectTL s.overlayRect),
       (HANDLE_TOP_RIGHT, cornerRectTR s.overlayRect),
       (HANDLE_BOTTOM_LEFT, cornerRectBL s.overlayRect),
       (HANDLE_BOTTOM_RIGHT, cornerRectBR s.overlayRect)] := by
    simp [getHandleRects, hnull]
  have heq : getHandleAt s pos = handleAtSpec s pos := by
    unfold getHandleAt handleAtSpec
    rw [hrects]
    by_cases h1 : (cornerRectTL s.overlayRect).containsPt pos <;>
    by_cases h2 : (cornerRectTR s.overlayRect).containsPt pos <;>
    by_cases h3 : (cornerRectBL s.overlayRect).containsPt pos <;>
    by_cases h4 : (cornerRectBR s.overlayRect).containsPt pos <;>
      simp [List.find?, h1, h2, h3, h4]
  refine ⟨heq, ?_⟩
  intro k r hmem hcont
  rw [hrects] at hmem
  have hdisj : (cornerRectTL s.overlayRect).containsPt pos = true ∨
      (cornerRectTR s.overlayRect).containsPt pos = true ∨
      (cornerRectBL s.overlayRect).containsPt pos = true ∨
      (cornerRectBR s.overlayRect).containsPt pos = true := by
    simp only [List.mem_cons, List.not_mem_nil, or_false] at hmem
    rcases hmem with h | h | h | h <;> rw [Prod.mk.injEq] at h
    · exact Or.inl (h.2 ▸ hcont)
    · exact Or.inr (Or.inl (h.2 ▸ hcont))
    · exact Or.inr (Or.inr (Or.inl (h.2 ▸ hcont)))
    · exact Or.inr (Or.inr (Or.inr (h.2 ▸ hcont)))
  have hspec : handleAtSpec s pos = HANDLE_TOP_LEFT ∨
      handleAtSpec s pos = HANDLE_TOP_RIGHT ∨
      handleAtSpec s pos = HANDLE_BOTTOM_LEFT ∨
      handleAtSpec s pos = HANDLE_BOTTOM_RIGHT := by
    unfold handleAtSpec
    split_ifs <;> simp_all
  rw [heq]
  rcases hspec with h | h | h | h <;> rw [h] <;> exact ⟨by decide, by decide⟩

theorem getHandleAt_priority_witness :
    getHandleAt exampleDragState ⟨20, 20⟩ = handleAtSpec exampleDragState ⟨20, 20⟩ ∧
    getHandleAt exampleDragState ⟨20, 20⟩ = HANDLE_BOTTOM_RIGHT :=
  ⟨(getHandleAt_priority exampleDragState ⟨20, 20⟩ (by decide)).1, by decide⟩

theorem pyround_zero : pyround (0 : ℚ) = 0 := by
  have h := pyround_intCast 0
  simpa using h

theorem aspectAdjust_fst_le (w h : ℤ) (ar : ℚ) : (aspectAdjust w h ar).1 ≤ w := by
  unfold aspectAdjust
  split_ifs with har hcmp
  · exact le_refl w
  · push_neg at hcmp
    have hle : (h : ℚ) * ar ≤ (w : ℚ) := (le_div_iff₀ har).mp hcmp
    exact pyround_le_of_le hle
  · exact le_refl w

theorem aspectAdjust_snd_le (w h : ℤ) (ar : ℚ) : (aspectAdjust w h ar).2 ≤ h := by
  unfold aspectAdjust
  split_ifs with har hcmp
  · exact pyround_le_of_le (le_of_lt hcmp)
  · exact le_refl h
  · exact le_refl h

/-- After the shrink-to-fit block, one dimension is exactly the
rounding of the other through the aspect ratio. -/
theorem aspectAdjust_rel (w h : ℤ) (ar : ℚ) (har : 0 < ar) :
    (aspectAdjust w h ar).2 = pyround (((aspectAdjust w h ar).1 : ℚ) / ar) ∨
    (aspectAdjust w h ar).1 = pyround (((aspectAdjust w h ar).2 : ℚ) * ar) := by
  unfold aspectAdjust
  rw [if_pos har]
  split_ifs with hcmp
  · exact Or.inl rfl
  · exact Or.inr rfl

/-- When a drag step commits (the candidate differs from the current
overlay rectangle and the monitor rectangle is non-degenerate), the
overlay rectangle becomes the candidate and the canonical position is
re-derived from the candidate's origin through `toRealCoord`. -/
theorem dragStep_commit (s : WState) (cur : Pt)
    (hmode : s.draggingMode ≠ HANDLE_NONE)
    (hch : s.overlayRect ≠ dragCandidate s ⟨cur.x - s.dragStartPos.x, cur.y - s.dragStartPos.y⟩)
    (hw : 0 < s.monitorRect.w) (hh : 0 < s.monitorRect.h) :
    (dragStep s true cur).state.overlayRect =
      dragCandidate s ⟨cur.x - s.dragStartPos.x, cur.y - s.dragStartPos.y⟩ ∧
    (dragStep s true cur).state.overlayRelativePos =
      (⟨toRealCoord s.monitorRect.x s.monitorRect.w s.monitorWidthPx
          (dragCandidate s ⟨cur.x - s.dragStartPos.x, cur.y - s.dragStartPos.y⟩).x,
        toRealCoord s.monitorRect.y s.monitorRect.h s.monitorHeightPx
          (dragCandidate s ⟨cur.x - s.dragStartPos.x, cur.y - s.dragStartPos.y⟩).y⟩ : Pt) := by
  unfold dragStep
  simp only []
  rw [if_pos ⟨hmode, trivial⟩, if_pos ⟨hch, hw, hh⟩]
  split_ifs <;> simp_all

/-- `mouseReleaseEvent` never changes the stored canonical position. -/
theorem mouseRelease_pos (s : WState) (lb ba : Bool) (p : Pt) :
    (mouseRelease s lb ba p).overlayRelativePos = s.overlayRelativePos := by
  unfold mouseRelease
  split_ifs with h
  · unfold dragStep
    simp only []
    rw [if_neg (fun hc => hc.1 rfl)]
  · rfl

/-- Claim C7: a move drag's candidate rectangle is the drag-start
rectangle translated by the pointer delta with its origin clamped
against the monitor rectangle and its size unchanged; consequently a
committed move drag past the monitor's left edge stores a canonical
relative x of exactly 0 (and releasing the pointer never changes the
stored position). -/
theorem moveDrag_left_clamp (s : WState) (cur : Pt)
    (hmode : s.draggingMode = HANDLE_MOVE)
    (hw : 0 < s.monitorRect.w) (hh : 0 < s.monitorRect.h)
    (hpast : s.dragStartRect.x + (cur.x - s.dragStartPos.x) ≤ s.monitorRect.x)
    (hch : s.overlayRect ≠ dragCandidate s ⟨cur.x - s.dragStartPos.x, cur.y - s.dragStartPos.y⟩) :
    dragCandidate s ⟨cur.x - s.dragStartPos.x, cur.y - s.dragStartPos.y⟩ =
      ⟨max s.monitorRect.left (min (s.dragStartRect.x + (cur.x - s.dragStartPos.x))
          (s.monitorRect.right + 1 - s.dragStartRect.w)),
        max s.monitorRect.top (min (s.dragStartRect.y + (cur.y - s.dragStartPos.y))
          (s.monitorRect.bottom + 1 - s.dragStartRect.h)),
        s.dragStartRect.w, s.dragStartRect.h⟩ ∧
    (dragStep s true cur).state.overlayRelativePos.x = 0 ∧
    (∀ (s1 : WState) (lb ba : Bool) (p : Pt),
      (mouseRelease s1 lb ba p).overlayRelativePos = s1.overlayRelativePos) := by
  have hcand : dragCandidate s ⟨cur.x - s.dragStartPos.x, cur.y - s.dragStartPos.y⟩ =
      ⟨max s.monitorRect.left (min (s.dragStartRect.x + (cur.x - s.dragStartPos.x))
          (s.monitorRect.right + 1 - s.dragStartRect.w)),
        max s.monitorRect.top (min (s.dragStartRect.y + (cur.y - s.dragStartPos.y))
          (s.monitorRect.bottom + 1 - s.dragStartRect.h)),
        s.dragStartRect.w, s.dragStartRect.h⟩ := by
    unfold dragCandidate
    rw [if_pos hmode]
    simp [Rect.translateBy, Rect.moveLeftTo, Rect.moveTopTo,
      Rect.left, Rect.top, Rect.right, Rect.bottom]
  refine ⟨hcand, ?_, fun s1 lb ba p => mouseRelease_pos s1 lb ba p⟩
  have hmode0 : s.draggingMode ≠ HANDLE_NONE := by rw [hmode]; decide
  have hcommit := dragStep_commit s cur hmode0 hch hw hh
  rw [hcommit.2]
  have hx : (dragCandidate s ⟨cur.x - s.dragStartPos.x, cur.y - s.dragStartPos.y⟩).x
      = s.monitorRect.x := by
    rw [hcand]
    simp only [Rect.left, Rect.right]
    omega
  show toRealCoord s.monitorRect.x s.monitorRect.w s.monitorWidthPx
      (dragCandidate s ⟨cur.x - s.dragStartPos.x, cur.y - s.dragStartPos.y⟩).x = 0
  rw [hx]
  simp [toRealCoord, pyround_zero]

/-- A state in the middle of a move drag, with the overlay away from
the monitor rectangle's left edge. -/
def exampleMoveState : WState :=
  { exampleDragState with draggingMode := HANDLE_MOVE
                          overlayRect := ⟨30, 1, 20, 20⟩
                          dragStartRect := ⟨30, 1, 20, 20⟩ }

theorem moveDrag_left_clamp_witness :
    (dragStep exampleMoveState true ⟨50, 100⟩).state.overlayRelativePos.x = 0 :=
  (moveDrag_left_clamp exampleMoveState ⟨50, 100⟩ (by decide) (by decide) (by decide)
    (by decide) (by decide)).2.1

/-- For a bottom-right resize, the raw resize width never exceeds the
space between the pinned left edge and the monitor rectangle's right
edge (inclusive-plus-one convention). -/
theorem resizeRawBR_width_le (s : WState) (delta : Pt) :
    (resizeRawBR s delta).1 ≤ s.monitorRect.right + 1 - s.dragStartRect.left := by
  unfold resizeRawBR
  simp only []
  refine le_trans (aspectAdjust_fst_le _ _ _) ?_
  exact sub_le_sub_right (min_le_left _ _) _

/-- Claim C6 (amended): any committed bottom-right resize drag step
keeps the pinned top-left corner exactly at the drag-start
rectangle's top-left, and — provided the drag-start rectangle starts
at or after the monitor rectangle's left edge with at least the
minimum preview width (2×HANDLE_SIZE+2) of room to the right edge —
the resulting overlay rectangle's right edge never passes the monitor
rectangle's right edge, boundary clamping and the minimum-size floor
included.  The room condition is necessary: when the monitor
rectangle is narrower than the minimum preview size, the final
`max(min_w_preview, final_w)` floor pushes the right edge back past
the clamped bound — see the counterexample. -/
theorem resizeBR_clamped (s : WState) (cur : Pt)
    (hmode : s.draggingMode = HANDLE_BOTTOM_RIGHT)
    (hx : s.monitorRect.x ≤ s.dragStartRect.x)
    (hxw : s.dragStartRect.x + minPreviewSize ≤ s.monitorRect.x + s.monitorRect.w)
    (hh : 0 < s.monitorRect.h)
    (hch : s.overlayRect ≠ dragCandidate s ⟨cur.x - s.dragStartPos.x, cur.y - s.dragStartPos.y⟩) :
    (dragStep s true cur).state.overlayRect.x = s.dragStartRect.x ∧
    (dragStep s true cur).state.overlayRect.y = s.dragStartRect.y ∧
    (dragStep s true cur).state.overlayRect.right ≤ s.monitorRect.right := by
  have hmps : minPreviewSize = 18 := by norm_num [minPreviewSize, HANDLE_SIZE]
  have hw : 0 < s.monitorRect.w := by omega
  have hmode0 : s.draggingMode ≠ HANDLE_NONE := by rw [hmode]; decide
  have hcommit := dragStep_commit s cur hmode0 hch hw hh
  have hcand : dragCandidate s ⟨cur.x - s.dragStartPos.x, cur.y - s.dragStartPos.y⟩ =
      resizeRectBR s ⟨cur.x - s.dragStartPos.x, cur.y - s.dragStartPos.y⟩ := by
    unfold dragCandidate
    rw [if_neg (by rw [hmode]; decide), if_pos hmode]
  rw [hcommit.1, hcand]
  have hraw := resizeRawBR_width_le s ⟨cur.x - s.dragStartPos.x, cur.y - s.dragStartPos.y⟩
  unfold resizeRectBR
  simp only [Rect.setSizeTo, Rect.right, Rect.left] at *
  refine ⟨trivial, trivial, ?_⟩
  omega

theorem resizeBR_clamped_witness :
    (dragStep exampleDragState true ⟨280, 100⟩).state.overlayRect.x
      = exampleDragState.dragStartRect.x ∧
    (dragStep exampleDragState true ⟨280, 100⟩).state.overlayRect.y
      = exampleDragState.dragStartRect.y ∧
    (dragStep exampleDragState true ⟨280, 100⟩).state.overlayRect.right
      ≤ exampleDragState.monitorRect.right := by
  have hch : exampleDragState.overlayRect ≠ dragCandidate exampleDragState
      ⟨(⟨280, 100⟩ : Pt).x - exampleDragState.dragStartPos.x,
       (⟨280, 100⟩ : Pt).y - exampleDragState.dragStartPos.y⟩ := by
    norm_num [exampleDragState, dragCandidate, resizeRectBR, resizeRawBR, aspectAdjust,
      minHPreviewOf, minPreviewSize, HANDLE_SIZE, HANDLE_NONE, HANDLE_MOVE, HANDLE_BOTTOM_RIGHT,
      HANDLE_TOP_LEFT, HANDLE_BOTTOM_LEFT, HANDLE_TOP_RIGHT, Rect.setSizeTo, Rect.left, Rect.top,
      Rect.right, Rect.bottom, pyround, Int.fdiv]
  exact resizeBR_clamped exampleDragState ⟨280, 100⟩ (by decide) (by decide) (by decide)
    (by decide) hch

/-- A reachable drag state on a tiny preview: a 300×1000 display in a
100×50 widget (the widget's own minimum size) letterboxes to a
monitor rectangle only 14 px wide — narrower than the 18 px minimum
preview size — with a bottom-right drag in progress.
`tinyMonitorDragState_reachable` shows it is produced by the public
API. -/
def tinyMonitorDragState : WState :=
  { monitorAspectRatio := 3/10
    monitorRect := ⟨43, 1, 14, 48⟩
    overlayRect := ⟨43, 1, 18, 24⟩
    overlayRelativePos := ⟨0, 0⟩
    overlayActualWidth := 150
    overlayActualHeight := 500
    overlayAspectRatio := 3/10
    monitorWidthPx := 300
    monitorHeightPx := 1000
    draggingMode := HANDLE_BOTTOM_RIGHT
    dragStartPos := ⟨200, 200⟩
    dragStartRect := ⟨43, 1, 18, 24⟩ }

theorem tinyMonitorDragState_reachable : tinyMonitorDragState =
    mousePress (setOverlayInfo 100 50
      (setMonitorGeometry 100 50 initState 300 1000).state 0 0 150 500).state
      true ⟨56, 22⟩ ⟨200, 200⟩ := by
  norm_num [tinyMonitorDragState, mousePress, setOverlayInfo, setMonitorGeometry, calculateRects,
    monitorFitRect, overlayPreviewRect, toCanvasCoord, pyround, minPreviewSize, HANDLE_SIZE,
    initState, Int.fdiv, Rect.left, Rect.top, Rect.right, Rect.bottom, getHandleAt,
    getHandleRects, Rect.containsPt, Rect.isNull, cornerRectTL, cornerRectTR, cornerRectBL,
    cornerRectBR, handleHalf, HANDLE_TOP_LEFT, HANDLE_TOP_RIGHT, HANDLE_BOTTOM_LEFT,
    HANDLE_BOTTOM_RIGHT, HANDLE_MOVE, HANDLE_NONE, List.find?]

/-- Claim C6 counterexample: from the reachable state
`tinyMonitorDragState` (bottom-right press at (56, 22) inside the
monitor rectangle (43, 1, 14, 48)), dragging the pointer 20 px to the
right — past the monitor's right edge — commits the overlay rectangle
(43, 1, 18, 60): the minimum-size floor pushes its right edge to
60 > 56, violating `overlay_rect.right ≤ monitor_rect.right` even
though the pinned top-left corner stays put. -/
theorem resizeBR_clamped_counterexample :
    tinyMonitorDragState.draggingMode = HANDLE_BOTTOM_RIGHT ∧
    tinyMonitorDragState = mousePress (setOverlayInfo 100 50
      (setMonitorGeometry 100 50 initState 300 1000).state 0 0 150 500).state
      true ⟨56, 22⟩ ⟨200, 200⟩ ∧
    (dragStep tinyMonitorDragState true ⟨220, 200⟩).state.overlayRect = ⟨43, 1, 18, 60⟩ ∧
    (dragStep tinyMonitorDragState true ⟨220, 200⟩).state.monitorRect = ⟨43, 1, 14, 48⟩ ∧
    ¬((dragStep tinyMonitorDragState true ⟨220, 200⟩).state.overlayRect.right ≤
      (dragStep tinyMonitorDragState true ⟨220, 200⟩).state.monitorRect.right) := by
  have hov : (dragStep tinyMonitorDragState true ⟨220, 200⟩).state.overlayRect
      = ⟨43, 1, 18, 60⟩ := by
    norm_num [tinyMonitorDragState, dragStep, dragCandidate, resizeRectBR, resizeRawBR,
      aspectAdjust, minHPreviewOf, minPreviewSize, HANDLE_SIZE, HANDLE_NONE, HANDLE_MOVE,
      HANDLE_BOTTOM_RIGHT, HANDLE_TOP_LEFT, HANDLE_BOTTOM_LEFT, HANDLE_TOP_RIGHT,
      Rect.setSizeTo, Rect.left, Rect.top, Rect.right, Rect.bottom, toRealCoord, pyround,
      Int.fdiv]
  have hmon : (dragStep tinyMonitorDragState true ⟨220, 200⟩).state.monitorRect
      = ⟨43, 1, 14, 48⟩ := by
    norm_num [tinyMonitorDragState, dragStep, dragCandidate, resizeRectBR, resizeRawBR,
      aspectAdjust, minHPreviewOf, minPreviewSize, HANDLE_SIZE, HANDLE_NONE, HANDLE_MOVE,
      HANDLE_BOTTOM_RIGHT, HANDLE_TOP_LEFT, HANDLE_BOTTOM_LEFT, HANDLE_TOP_RIGHT,
      Rect.setSizeTo, Rect.left, Rect.top, Rect.right, Rect.bottom, toRealCoord, pyround,
      Int.fdiv]
  refine ⟨by decide, tinyMonitorDragState_reachable, hov, hmon, ?_⟩
  rw [hov, hmon]
  decide

/-- The width/height pair produced by the active corner-resize branch
after clamping and the aspect shrink step, before the final
minimum-size floors. -/
def resizeFinalPair (s : WState) (delta : Pt) : ℤ × ℤ :=
  if s.draggingMode = HANDLE_BOTTOM_RIGHT then resizeRawBR s delta
  else if s.draggingMode = HANDLE_TOP_LEFT then (resizeRawTL s delta).2
  else if s.draggingMode = HANDLE_BOTTOM_LEFT then (resizeRawBL s delta).2
  else (resizeRawTR s delta).2

theorem resizeRawBR_eq_adjust (s : WState) (delta : Pt) :
    ∃ a b, resizeRawBR s delta = aspectAdjust a b s.overlayAspectRatio := by
  unfold resizeRawBR
  exact ⟨_, _, rfl⟩

theorem resizeRawTL_eq_adjust (s : WState) (delta : Pt) :
    ∃ a b, (resizeRawTL s delta).2 = aspectAdjust a b s.overlayAspectRatio := by
  unfold resizeRawTL
  exact ⟨_, _, rfl⟩

theorem resizeRawBL_eq_adjust (s : WState) (delta : Pt) :
    ∃ a b, (resizeRawBL s delta).2 = aspectAdjust a b s.overlayAspectRatio := by
  unfold resizeRawBL
  exact ⟨_, _, rfl⟩

theorem resizeRawTR_eq_adjust (s : WState) (delta : Pt) :
    ∃ a b, (resizeRawTR s delta).2 = aspectAdjust a b s.overlayAspectRatio := by
  unfold resizeRawTR
  exact ⟨_, _, rfl⟩

/-- Claim C2 (amended): in any corner-resize drag step whose final
width and height are not overridden by the minimum-size floors, the
candidate rectangle's dimensions satisfy the stored canonical aspect
ratio `_overlay_aspect_ratio` to within half a pixel in one of the
two dimensions (one dimension is exactly the rounding of the other
through that ratio), boundary clamping included.  It is the canonical
ratio — not the pre-drag preview rectangle's width/height ratio —
that is preserved; the counterexample shows the pre-drag preview
ratio can be violated by several pixels. -/
theorem resize_aspect_preserved (s : WState) (delta : Pt)
    (har : 0 < s.overlayAspectRatio)
    (hmode : s.draggingMode = HANDLE_BOTTOM_RIGHT ∨ s.draggingMode = HANDLE_TOP_LEFT ∨
      s.draggingMode = HANDLE_BOTTOM_LEFT ∨ s.draggingMode = HANDLE_TOP_RIGHT)
    (hfw : minPreviewSize ≤ (resizeFinalPair s delta).1)
    (hfh : minHPreviewOf s.overlayAspectRatio ≤ (resizeFinalPair s delta).2) :
    (dragCandidate s delta).w = (resizeFinalPair s delta).1 ∧
    (dragCandidate s delta).h = (resizeFinalPair s delta).2 ∧
    (|((dragCandidate s delta).h : ℚ) -
        ((dragCandidate s delta).w : ℚ) / s.overlayAspectRatio| ≤ 1/2 ∨
     |((dragCandidate s delta).w : ℚ) -
        ((dragCandidate s delta).h : ℚ) * s.overlayAspectRatio| ≤ 1/2) := by
  have hdims : (dragCandidate s delta).w = (resizeFinalPair s delta).1 ∧
      (dragCandidate s delta).h = (resizeFinalPair s delta).2 := by
    rcases hmode with hm | hm | hm | hm
    · have hc : dragCandidate s delta = resizeRectBR s delta := by
        unfold dragCandidate
        rw [if_neg (by rw [hm]; decide), if_pos hm]
      have hp : resizeFinalPair s delta = resizeRawBR s delta := by
        unfold resizeFinalPair
        rw [if_pos hm]
      rw [hp] at hfw hfh
      rw [hc, hp]
      unfold resizeRectBR
      simp only [Rect.setSizeTo]
      exact ⟨max_eq_right hfw, max_eq_right hfh⟩
    · have hc : dragCandidate s delta = resizeRectTL s delta := by
        unfold dragCandidate
        rw [if_neg (by rw [hm]; decide), if_neg (by rw [hm]; decide), if_pos hm]
      have hp : resizeFinalPair s delta = (resizeRawTL s delta).2 := by
        unfold resizeFinalPair
        rw [if_neg (by rw [hm]; decide), if_pos hm]
      rw [hp] at hfw hfh
      rw [hc, hp]
      unfold resizeRectTL
      simp only [Rect.setSizeTo]
      exact ⟨max_eq_right hfw, max_eq_right hfh⟩
    · have hc : dragCandidate s delta = resizeRectBL s delta := by
        unfold dragCandidate
        rw [if_neg (by rw [hm]; decide), if_neg (by rw [hm]; decide),
          if_neg (by rw [hm]; decide), if_pos hm]
      have hp : resizeFinalPair s delta = (resizeRawBL s delta).2 := by
        unfold resizeFinalPair
        rw [if_neg (by rw [hm]; decide), if_neg (by rw [hm]; decide), if_pos hm]
      rw [hp] at hfw hfh
      rw [hc, hp]
      unfold resizeRectBL
      simp only [Rect.setSizeTo]
      exact ⟨max_eq_right hfw, max_eq_right hfh⟩
    · have hc : dragCandidate s delta = resizeRectTR s delta := by
        unfold dragCandidate
        rw [if_neg (by rw [hm]; decide), if_neg (by rw [hm]; decide),
          if_neg (by rw [hm]; decide), if_neg (by rw [hm]; decide), if_pos hm]
      have hp : resizeFinalPair s delta = (resizeRawTR s delta).2 := by
        unfold resizeFinalPair
        rw [if_neg (by rw [hm]; decide), if_neg (by rw [hm]; decide),
          if_neg (by rw [hm]; decide)]
      rw [hp] at hfw hfh
      rw [hc, hp]
      unfold resizeRectTR
      simp only [Rect.setSizeTo]
      exact ⟨max_eq_right hfw, max_eq_right hfh⟩
  have hrel : (resizeFinalPair s delta).2 =
      pyround (((resizeFinalPair s delta).1 : ℚ) / s.overlayAspectRatio) ∨
      (resizeFinalPair s delta).1 =
      pyround (((resizeFinalPair s delta).2 : ℚ) * s.overlayAspectRatio) := by
    rcases hmode with hm | hm | hm | hm
    · have hp : resizeFinalPair s delta = resizeRawBR s delta := by
        unfold resizeFinalPair
        rw [if_pos hm]
      obtain ⟨a, b, hab⟩ := resizeRawBR_eq_adjust s delta
      rw [hp, hab]
      exact aspectAdjust_rel a b _ har
    · have hp : resizeFinalPair s delta = (resizeRawTL s delta).2 := by
        unfold resizeFinalPair
        rw [if_neg (by rw [hm]; decide), if_pos hm]
      obtain ⟨a, b, hab⟩ := resizeRawTL_eq_adjust s delta
      rw [hp, hab]
      exact aspectAdjust_rel a b _ har
    · have hp : resizeFinalPair s delta = (resizeRawBL s delta).2 := by
        unfold resizeFinalPair
        rw [if_neg (by rw [hm]; decide), if_neg (by rw [hm]; decide), if_pos hm]
      obtain ⟨a, b, hab⟩ := resizeRawBL_eq_adjust s delta
      rw [hp, hab]
      exact aspectAdjust_rel a b _ har
    · have hp : resizeFinalPair s delta = (resizeRawTR s delta).2 := by
        unfold resizeFinalPair
        rw [if_neg (by rw [hm]; decide), if_neg (by rw [hm]; decide),
          if_neg (by rw [hm]; decide)]
      obtain ⟨a, b, hab⟩ := resizeRawTR_eq_adjust s delta
      rw [hp, hab]
      exact aspectAdjust_rel a b _ har
  refine ⟨hdims.1, hdims.2, ?_⟩
  rw [hdims.1, hdims.2]
  rcases hrel with h | h
  · left; rw [h]; exact abs_pyround_sub_le _
  · right; rw [h]; exact abs_pyround_sub_le _

/-- Claim C2 counterexample: a reachable bottom-right resize step on a
20×20 pre-drag preview rectangle (canonical overlay 122×118 px, so
the canonical aspect ratio 61/59 differs from the preview's 1:1)
commits a 186×180 rectangle, which is 6 px away from the pre-drag
rectangle's ratio in both dimensions — beyond the claimed ±1 px. -/
theorem resize_aspect_counterexample :
    exampleDragState.draggingMode = HANDLE_BOTTOM_RIGHT ∧
    exampleDragState.dragStartRect = ⟨1, 1, 20, 20⟩ ∧
    exampleDragState.overlayRect = exampleDragState.dragStartRect ∧
    (dragStep exampleDragState true ⟨280, 100⟩).state.overlayRect = ⟨1, 1, 186, 180⟩ ∧
    ¬(|(186 : ℚ) - (180 : ℚ) * ((20 : ℚ) / (20 : ℚ))| ≤ 1 ∨
      |(180 : ℚ) - (186 : ℚ) / ((20 : ℚ) / (20 : ℚ))| ≤ 1) :=
  ⟨by decide, by decide, by decide, dragStep_example_rect, by norm_num⟩

theorem resize_aspect_preserved_witness :
    (dragCandidate exampleDragState ⟨180, 0⟩).w = (resizeFinalPair exampleDragState ⟨180, 0⟩).1 ∧
    (dragCandidate exampleDragState ⟨180, 0⟩).h = (resizeFinalPair exampleDragState ⟨180, 0⟩).2 ∧
    (|((dragCandidate exampleDragState ⟨180, 0⟩).h : ℚ) -
        ((dragCandidate exampleDragState ⟨180, 0⟩).w : ℚ) / exampleDragState.overlayAspectRatio| ≤ 1/2 ∨
     |((dragCandidate exampleDragState ⟨180, 0⟩).w : ℚ) -
        ((dragCandidate exampleDragState ⟨180, 0⟩).h : ℚ) * exampleDragState.overlayAspectRatio| ≤ 1/2) := by
  refine resize_aspect_preserved exampleDragState ⟨180, 0⟩ ?_ (Or.inl (by decide)) ?_ ?_
  · norm_num [exampleDragState]
  · norm_num [resizeFinalPair, resizeRawBR, aspectAdjust, exampleDragState, minHPreviewOf,
      minPreviewSize, HANDLE_SIZE, HANDLE_BOTTOM_RIGHT, Rect.left, Rect.top, Rect.right,
      Rect.bottom, pyround]
  · norm_num [resizeFinalPair, resizeRawBR, aspectAdjust, exampleDragState, minHPreviewOf,
      minPreviewSize, HANDLE_SIZE, HANDLE_BOTTOM_RIGHT, Rect.left, Rect.top, Rect.right,
      Rect.bottom, pyround]

/-- With a valid widget drawable area, `_calculate_rects` always
stores the letterbox fit as the monitor rectangle, whatever the
overlay guard decides. -/
theorem calculateRects_monitorRect (widgetW widgetH : ℤ) (s : WState)
    (hW : 2 < widgetW) (hH : 2 < widgetH) :
    (calculateRects widgetW widgetH s).monitorRect =
      monitorFitRect ⟨1, 1, widgetW - 2, widgetH - 2⟩ s.monitorAspectRatio := by
  have hg : ¬(widgetW - 2 ≤ 0 ∨ widgetH - 2 ≤ 0) := by omega
  unfold calculateRects
  dsimp only
  rw [if_neg hg]
  split_ifs <;> rfl

/-- With a valid widget area, positive display dimensions and a
non-degenerate fitted monitor rectangle, `_calculate_rects` stores the
overlay preview rectangle computed by `overlayPreviewRect`. -/
theorem calculateRects_overlayRect (widgetW widgetH : ℤ) (s : WState)
    (hW : 2 < widgetW) (hH : 2 < widgetH)
    (hmw : 0 < s.monitorWidthPx) (hmh : 0 < s.monitorHeightPx)
    (hw : 0 < (monitorFitRect ⟨1, 1, widgetW - 2, widgetH - 2⟩ s.monitorAspectRatio).w)
    (hh : 0 < (monitorFitRect ⟨1, 1, widgetW - 2, widgetH - 2⟩ s.monitorAspectRatio).h) :
    (calculateRects widgetW widgetH s).overlayRect =
      overlayPreviewRect (monitorFitRect ⟨1, 1, widgetW - 2, widgetH - 2⟩ s.monitorAspectRatio)
        s.overlayRelativePos s.overlayActualWidth s.overlayActualHeight
        s.monitorWidthPx s.monitorHeightPx := by
  have hg : ¬(widgetW - 2 ≤ 0 ∨ widgetH - 2 ≤ 0) := by omega
  unfold calculateRects
  dsimp only
  rw [if_neg hg, if_pos ⟨hmw, hmh, hw, hh⟩]

/-- If the monitor preview rectangle is at least the minimum preview
size in both dimensions and the overlay's real dimensions do not
exceed the display's, the overlay preview rectangle is contained in
the monitor rectangle, minimum-size floor and all clamps included. -/
theorem overlayPreviewRect_within (mr : Rect) (relPos : Pt) (aw ah mw mh : ℤ)
    (hw : minPreviewSize ≤ mr.w) (hh : minPreviewSize ≤ mr.h)
    (hmw : 0 < mw) (hmh : 0 < mh) (haw : aw ≤ mw) (hah : ah ≤ mh) :
    mr.left ≤ (overlayPreviewRect mr relPos aw ah mw mh).left ∧
    (overlayPreviewRect mr relPos aw ah mw mh).right ≤ mr.right ∧
    mr.top ≤ (overlayPreviewRect mr relPos aw ah mw mh).top ∧
    (overlayPreviewRect mr relPos aw ah mw mh).bottom ≤ mr.bottom := by
  have hmps : minPreviewSize = 18 := by norm_num [minPreviewSize, HANDLE_SIZE]
  have hpw : pyround ((mr.w : ℚ) * ((aw : ℚ) / (mw : ℚ))) ≤ mr.w := by
    apply pyround_le_of_le
    have h1 : ((aw : ℚ) / (mw : ℚ)) ≤ 1 := by
      apply div_le_one_of_le₀
      · exact_mod_cast haw
      · exact_mod_cast le_of_lt hmw
    have h2 : (0 : ℚ) ≤ (mr.w : ℚ) := by exact_mod_cast (by omega : (0:ℤ) ≤ mr.w)
    calc (mr.w : ℚ) * ((aw : ℚ) / (mw : ℚ)) ≤ (mr.w : ℚ) * 1 :=
          mul_le_mul_of_nonneg_left h1 h2
      _ = (mr.w : ℚ) := mul_one _
  have hph : pyround ((mr.h : ℚ) * ((ah : ℚ) / (mh : ℚ))) ≤ mr.h := by
    apply pyround_le_of_le
    have h1 : ((ah : ℚ) / (mh : ℚ)) ≤ 1 := by
      apply div_le_one_of_le₀
      · exact_mod_cast hah
      · exact_mod_cast le_of_lt hmh
    have h2 : (0 : ℚ) ≤ (mr.h : ℚ) := by exact_mod_cast (by omega : (0:ℤ) ≤ mr.h)
    calc (mr.h : ℚ) * ((ah : ℚ) / (mh : ℚ)) ≤ (mr.h : ℚ) * 1 :=
          mul_le_mul_of_nonneg_left h1 h2
      _ = (mr.h : ℚ) := mul_one _
  unfold overlayPreviewRect toCanvasCoord
  simp only [Rect.left, Rect.top, Rect.right, Rect.bottom]
  split_ifs <;> refine ⟨?_, ?_, ?_, ?_⟩ <;> omega

/-- Claim C1 (amended): after `_calculate_rects` in a valid widget
area, whenever the computed monitor rectangle measures at least the
minimum preview size (2×HANDLE_SIZE+2) in both dimensions and the
overlay's real dimensions do not exceed the display's, the overlay
preview rectangle is contained in the monitor rectangle, including
when the minimum preview size floor was applied.  Dropping either
extra condition makes containment fail — see the counterexample. -/
theorem overlay_rect_within_monitor (widgetW widgetH : ℤ) (s : WState)
    (hW : 2 < widgetW) (hH : 2 < widgetH)
    (hmw : 0 < s.monitorWidthPx) (hmh : 0 < s.monitorHeightPx)
    (haw : s.overlayActualWidth ≤ s.monitorWidthPx)
    (hah : s.overlayActualHeight ≤ s.monitorHeightPx)
    (hfw : minPreviewSize ≤ (calculateRects widgetW widgetH s).monitorRect.w)
    (hfh : minPreviewSize ≤ (calculateRects widgetW widgetH s).monitorRect.h) :
    (calculateRects widgetW widgetH s).monitorRect.left
      ≤ (calculateRects widgetW widgetH s).overlayRect.left ∧
    (calculateRects widgetW widgetH s).overlayRect.right
      ≤ (calculateRects widgetW widgetH s).monitorRect.right ∧
    (calculateRects widgetW widgetH s).monitorRect.top
      ≤ (calculateRects widgetW widgetH s).overlayRect.top ∧
    (calculateRects widgetW widgetH s).overlayRect.bottom
      ≤ (calculateRects widgetW widgetH s).monitorRect.bottom := by
  have hmr := calculateRects_monitorRect widgetW widgetH s hW hH
  rw [hmr] at hfw hfh
  have h18 : (0:ℤ) < minPreviewSize := by norm_num [minPreviewSize, HANDLE_SIZE]
  have hov := calculateRects_overlayRect widgetW widgetH s hW hH hmw hmh
    (by omega) (by omega)
  rw [hmr, hov]
  exact overlayPreviewRect_within _ s.overlayRelativePos _ _ _ _ hfw hfh hmw hmh haw hah

/-- Claim C1 counterexample: a valid DisplaySpec(1920, 1080), a valid
OverlaySpec with width 3840 px (no upper bound is imposed by the
spec's data model) and a 322×182 widget give a non-degenerate monitor
rectangle (1,1,320,180) but an overlay rectangle (1,1,640,50) whose
right edge 640 lies far outside the monitor rectangle. -/
theorem overlay_rect_within_monitor_counterexample :
    (setOverlayInfo 322 182 initState 0 0 3840 300).state.monitorRect = ⟨1, 1, 320, 180⟩ ∧
    (setOverlayInfo 322 182 initState 0 0 3840 300).state.overlayRect = ⟨1, 1, 640, 50⟩ ∧
    ¬((⟨1, 1, 640, 50⟩ : Rect).right ≤ (⟨1, 1, 320, 180⟩ : Rect).right) := by
  refine ⟨?_, ?_, by decide⟩ <;>
    norm_num [setOverlayInfo, calculateRects, monitorFitRect, overlayPreviewRect, toCanvasCoord,
      pyround, minPreviewSize, HANDLE_SIZE, initState, Int.fdiv, Rect.left, Rect.top, Rect.right,
      Rect.bottom]

theorem overlay_rect_within_monitor_witness :
    (calculateRects 322 182 initState).monitorRect.left
      ≤ (calculateRects 322 182 initState).overlayRect.left ∧
    (calculateRects 322 182 initState).overlayRect.right
      ≤ (calculateRects 322 182 initState).monitorRect.right ∧
    (calculateRects 322 182 initState).monitorRect.top
      ≤ (calculateRects 322 182 initState).overlayRect.top ∧
    (calculateRects 322 182 initState).overlayRect.bottom
      ≤ (calculateRects 322 182 initState).monitorRect.bottom := by
  refine overlay_rect_within_monitor 322 182 initState (by norm_num) (by norm_num)
    (by decide) (by decide) (by decide) (by decide) ?_ ?_ <;>
    norm_num [calculateRects, monitorFitRect, overlayPreviewRect, toCanvasCoord, pyround,
      minPreviewSize, HANDLE_SIZE, initState, Int.fdiv, Rect.left, Rect.top, Rect.right,
      Rect.bottom]

/-- Canvas-to-real-to-canvas round trip per axis: exact to within one
pixel whenever the preview dimension does not exceed the real one. -/
theorem toCanvas_toReal_within_one (monO monD realD c : ℤ)
    (h0 : 0 < monD) (h1 : monD ≤ realD) (hc : monO ≤ c) :
    |toCanvasCoord monO monD realD (toRealCoord monO monD realD c) - c| ≤ 1 := by
  have hrealD : (0:ℚ) < (realD : ℚ) := by exact_mod_cast lt_of_lt_of_le h0 h1
  have hmonD : (0:ℚ) < (monD : ℚ) := by exact_mod_cast h0
  set d : ℤ := c - monO with hd
  set q1 : ℚ := ((d : ℤ) : ℚ) / (monD : ℚ) * (realD : ℚ) with hq1
  have hq1nn : 0 ≤ q1 := by
    rw [hq1]
    apply mul_nonneg
    · apply div_nonneg
      · exact_mod_cast (by omega : (0:ℤ) ≤ d)
      · exact le_of_lt hmonD
    · exact le_of_lt hrealD
  have hreal : toRealCoord monO monD realD c = pyround q1 := by
    unfold toRealCoord
    rw [← hd, ← hq1]
    exact max_eq_right (pyround_nonneg hq1nn)
  have key : (monD : ℚ) * (((pyround q1 : ℤ) : ℚ) / (realD : ℚ)) =
      (d : ℚ) + ((pyround q1 : ℚ) - q1) * ((monD : ℚ) / (realD : ℚ)) := by
    rw [hq1]
    field_simp
    ring
  have herr : |((pyround q1 : ℚ) - q1) * ((monD : ℚ) / (realD : ℚ))| ≤ 1/2 := by
    have hk1 : (monD : ℚ) / (realD : ℚ) ≤ 1 :=
      div_le_one_of_le₀ (by exact_mod_cast h1) (le_of_lt hrealD)
    have hk0 : 0 ≤ (monD : ℚ) / (realD : ℚ) := le_of_lt (div_pos hmonD hrealD)
    have h2 := abs_pyround_sub_le q1
    rw [abs_mul, abs_of_nonneg hk0]
    calc |(pyround q1 : ℚ) - q1| * ((monD : ℚ) / (realD : ℚ))
        ≤ (1/2) * 1 := by
          apply mul_le_mul h2 hk1 hk0
          norm_num
      _ = 1/2 := by norm_num
  obtain ⟨herr1, herr2⟩ := abs_le.mp herr
  have hEub : (monD : ℚ) * (((pyround q1 : ℤ) : ℚ) / (realD : ℚ)) ≤ ((d + 1 : ℤ) : ℚ) := by
    rw [key]
    push_cast
    linarith
  have hp_ub : pyround ((monD : ℚ) * (((pyround q1 : ℤ) : ℚ) / (realD : ℚ))) ≤ d + 1 :=
    pyround_le_of_le hEub
  have hfloor_lb : (d - 1 : ℤ) ≤ ⌊(monD : ℚ) * (((pyround q1 : ℤ) : ℚ) / (realD : ℚ))⌋ := by
    apply Int.le_floor.mpr
    rw [key]
    push_cast
    linarith
  have hp_lb := floor_le_pyround ((monD : ℚ) * (((pyround q1 : ℤ) : ℚ) / (realD : ℚ)))
  unfold toCanvasCoord
  rw [hreal]
  rw [abs_le]
  constructor <;> omega

/-- Claim C3 (amended): for DisplaySpec(1920, 1080), the round trip in
the direction canvas → real → canvas is within ±1 px for any canvas
point at or beyond the monitor rectangle's origin, whenever the
monitor preview rectangle is no larger than the display — as holds
for every preview smaller than the screen.  The claimed direction
real → canvas → real can be off by several pixels because the preview
is the coarser space — see the counterexample. -/
theorem roundtrip_canvas_real (monX monY monW monH cx cy : ℤ)
    (hw0 : 0 < monW) (hw1 : monW ≤ 1920) (hh0 : 0 < monH) (hh1 : monH ≤ 1080)
    (hx : monX ≤ cx) (hy : monY ≤ cy) :
    |toCanvasCoord monX monW 1920 (toRealCoord monX monW 1920 cx) - cx| ≤ 1 ∧
    |toCanvasCoord monY monH 1080 (toRealCoord monY monH 1080 cy) - cy| ≤ 1 :=
  ⟨toCanvas_toReal_within_one monX monW 1920 cx hw0 hw1 hx,
   toCanvas_toReal_within_one monY monH 1080 cy hh0 hh1 hy⟩

theorem roundtrip_canvas_real_witness :
    |toCanvasCoord 1 320 1920 (toRealCoord 1 320 1920 25) - 25| ≤ 1 ∧
    |toCanvasCoord 1 180 1080 (toRealCoord 1 180 1080 19) - 19| ≤ 1 :=
  roundtrip_canvas_real 1 1 320 180 25 19 (by norm_num) (by norm_num) (by norm_num)
    (by norm_num) (by norm_num) (by norm_num)

/-- Claim C3 counterexample: with the monitor rectangle (1,1,320,180)
that `_calculate_rects` produces for DisplaySpec(1920, 1080) and
OverlaySpec(100, 100, 400, 300) in a 322×182 widget, the real point
x = 4 maps forward to canvas x = 2 and back to real x = 6: an error
of 2 px, beyond the claimed ±1. -/
theorem roundtrip_counterexample :
    (setOverlayInfo 322 182 initState 100 100 400 300).state.monitorRect = ⟨1, 1, 320, 180⟩ ∧
    toCanvasCoord 1 320 1920 4 = 2 ∧
    toRealCoord 1 320 1920 2 = 6 ∧
    ¬(|(6 : ℤ) - 4| ≤ 1) := by
  refine ⟨?_, ?_, ?_, by decide⟩
  · norm_num [setOverlayInfo, calculateRects, monitorFitRect, overlayPreviewRect, toCanvasCoord,
      pyround, minPreviewSize, HANDLE_SIZE, initState, Int.fdiv, Rect.left, Rect.top, Rect.right,
      Rect.bottom]
  · norm_num [toCanvasCoord, pyround]
  · norm_num [toRealCoord, pyround]

end CCImageOverlay
